import Mathlib

/-!
Verification of the procXD geometry/layout engine against its
natural-language specification.

The definitions below are shallow embeddings of the Python source:

* `src/procXD/color_utils.py`  — `sample_color` (hue rotation and the
  contrast-repair loop), with `colorsys.rgb_to_hsv` / `colorsys.hsv_to_rgb`
  transcribed over `ℚ`;
* `src/procXD/primitives.py`   — `ExcaliDrawPrimitive.__init__` (id handling),
  `Group` (membership and bounding-box maintenance), the `Line.points` setter,
  the `Text` size/font setters, and `get_quad_boundary_point` over `ℝ`;
* `src/procXD/sketch_builder.py` — `create_binding_arrows`, the root selection
  of `render_stack_sketch`, and the node-comparison loop of
  `render_comparitive_stack_sketch`.

Python floats are modelled by exact rationals (all arithmetic the modelled
code performs on the inputs used here is exact in binary floating point),
`math.atan2`-based geometry by real numbers, Python `int(...)` by truncation
toward zero, and attribute errors by `Except`.
-/

namespace ProcXD

/-- Python exceptions that the modelled code can raise. -/
inductive PyErr where
  | attributeError
  | indexError
deriving DecidableEq

/-- Python `int(x)` on a float: truncation toward zero. -/
def pyInt (q : ℚ) : ℤ := if 0 ≤ q then ⌊q⌋ else ⌈q⌉

/-- Python `x % m` on floats for a positive modulus `m`
(result has the sign of `m`). -/
def pymodQ (x m : ℚ) : ℚ := x - m * ⌊x / m⌋

/-! ## color_utils.py -/

/-- `colorsys.rgb_to_hsv`, transcribed over `ℚ`.  `sample_color` feeds it the
0..255 integer channels directly (not 0..1 fractions), so no scaling happens
before the call. -/
def rgb_to_hsv (r g b : ℚ) : ℚ × ℚ × ℚ :=
  let maxc := max r (max g b)
  let minc := min r (min g b)
  let v := maxc
  if minc = maxc then (0, 0, v)
  else
    let rangec := maxc - minc
    let s := rangec / maxc
    let rc := (maxc - r) / rangec
    let gc := (maxc - g) / rangec
    let bc := (maxc - b) / rangec
    let h := if r = maxc then bc - gc
             else if g = maxc then 2 + rc - bc
             else 4 + gc - rc
    (pymodQ (h / 6) 1, s, v)

/-- `colorsys.hsv_to_rgb`, transcribed over `ℚ`. -/
def hsv_to_rgb (h s v : ℚ) : ℚ × ℚ × ℚ :=
  if s = 0 then (v, v, v)
  else
    let i0 := pyInt (h * 6)
    let f := h * 6 - (i0 : ℚ)
    let p := v * (1 - s)
    let q := v * (1 - s * f)
    let t := v * (1 - s * (1 - f))
    let i := i0 % 6
    if i = 0 then (v, t, p)
    else if i = 1 then (q, v, p)
    else if i = 2 then (p, v, t)
    else if i = 3 then (p, q, v)
    else if i = 4 then (t, p, v)
    else (v, p, q)

/-- `int(c * 255)` applied to one 0..1 channel of `colorsys.hsv_to_rgb`
output (color_utils.py lines 87 and 106). -/
def to_255 (c : ℚ) : ℤ := pyInt (c * 255)

/-- `(0.2126 * red + 0.7152 * green + 0.0722 * blue) / 255` on the integer
channels (color_utils.py lines 88 and 107). -/
def luminance_of_ints (r g b : ℤ) : ℚ :=
  (2126 / 10000 * (r : ℚ) + 7152 / 10000 * (g : ℚ) + 722 / 10000 * (b : ℚ)) / 255

/-- Luminance of an HSV triple as `sample_color` computes it: convert to RGB,
truncate each channel to an integer, and apply the luminance formula. -/
def sample_color_luminance (hsv : ℚ × ℚ × ℚ) : ℚ :=
  let rgb := hsv_to_rgb hsv.1 hsv.2.1 hsv.2.2
  luminance_of_ints (to_255 rgb.1) (to_255 rgb.2.1) (to_255 rgb.2.2)

/-- Guard of the `while` loop in `sample_color` (color_utils.py line 92):
the loop keeps running while `(luminance + 0.05) / (0 + 0.05) < 4.5`. -/
def contrast_repair_continues (hsv : ℚ × ℚ × ℚ) : Prop :=
  (sample_color_luminance hsv + 5 / 100) / (0 + 5 / 100) < 45 / 10

instance (hsv : ℚ × ℚ × ℚ) : Decidable (contrast_repair_continues hsv) := by
  unfold contrast_repair_continues
  infer_instance

/-- One iteration of the repair loop body (color_utils.py lines 93-104):
raise the value by 0.1 (clamped at 1) when it is below 0.5, otherwise lower
it by 0.1 (clamped at 0). -/
def contrast_repair_step (hsv : ℚ × ℚ × ℚ) : ℚ × ℚ × ℚ :=
  if hsv.2.2 < 5 / 10 then (hsv.1, hsv.2.1, min (hsv.2.2 + 1 / 10) 1)
  else (hsv.1, hsv.2.1, max (hsv.2.2 - 1 / 10) 0)

/-- The `while` loop of `sample_color` terminates from a start state exactly
when some iterate of the body falsifies the guard. -/
def contrast_repair_terminates (hsv : ℚ × ℚ × ℚ) : Prop :=
  ∃ n : ℕ, ¬ contrast_repair_continues (contrast_repair_step^[n] hsv)

/-- Hue rotation added by `sample_color` before wrap-around
(color_utils.py line 78): `0.25 + 0.5 * random.random()`, in hue units
(1 hue unit = 360 degrees), as a function of the random draw `r`. -/
def sample_color_hue_rotation (r : ℚ) : ℚ := 25 / 100 + 5 / 10 * r

/-- The wrapped new hue of `sample_color` (color_utils.py lines 78-80). -/
def sample_color_new_hue (h r : ℚ) : ℚ :=
  let nh := h + 25 / 100 + 5 / 10 * r
  if nh > 1 then nh - 1 else nh

/-- The HSV state `sample_color` holds when it first reaches the repair loop
(color_utils.py lines 72-88), as a function of the parsed RGB input and the
random draw `r`: convert to HSV, rotate the hue, desaturate by 0.1 (clamped
at 0) and brighten by 0.1 (clamped at 1). -/
def sample_color_pre_loop (rgb : ℤ × ℤ × ℤ) (r : ℚ) : ℚ × ℚ × ℚ :=
  let hsv := rgb_to_hsv (rgb.1 : ℚ) (rgb.2.1 : ℚ) (rgb.2.2 : ℚ)
  (sample_color_new_hue hsv.1 r, max (hsv.2.1 - 1 / 10) 0, min (hsv.2.2 + 1 / 10) 1)

/-- The loop entry state for input color `#ff0000` with random draw `5/6`. -/
def red_loop_entry : ℚ × ℚ × ℚ := sample_color_pre_loop (255, 0, 0) (5 / 6)

/-! ## primitives.py: id handling in the constructors -/

/-- Effect of `ExcaliDrawPrimitive.__init__` (primitives.py lines 16-26) on
the `id` attribute.  `given` is the `id=` keyword argument (`none` when the
caller omits it), `fresh` the `uuid.uuid4()` string the constructor would
draw.  The body reads `if id is None: self.id = str(uuid.uuid4())` with no
`else`, so a non-None argument leaves the attribute unset. -/
def excalidraw_primitive_init_id (given : Option String) (fresh : String) : Option String :=
  match given with
  | none => some fresh
  | some _ => none

/-- Effect of `Rectangle.__init__` (primitives.py lines 166-187) on the `id`
attribute: after `super().__init__`, the `for key, value in kwargs.items()`
loop re-applies every keyword argument with `setattr`, so an explicit `id`
keyword is written onto the instance. `Diamond` and `Ellipse` inherit this
behaviour, and `Line.__init__` / `Arrow.__init__` (lines 300-321) and
`Text.__init__` (lines 220-252, which skips only `width`/`height`) have the
same kwargs re-application. -/
def rectangle_init_id (given : Option String) (fresh : String) : Option String :=
  match given with
  | some v => some v
  | none => excalidraw_primitive_init_id none fresh

/-- Effect of `Group.__init__` (primitives.py lines 74-83) on the `id`
attribute: it only forwards to `super().__init__` and has no kwargs
re-application loop, so the base-class behaviour is what remains. -/
def group_init_id (given : Option String) (fresh : String) : Option String :=
  excalidraw_primitive_init_id given fresh

/-- Reading `.id` on an instance: an unset attribute raises
`AttributeError`. -/
def read_id (idAttr : Option String) : Except PyErr String :=
  match idAttr with
  | none => .error .attributeError
  | some v => .ok v

/-! ## primitives.py: Group membership and bounding box -/

/-- A leaf member of a `Group` (a non-group `ExcaliDrawPrimitive`): its id,
position, size, and `groupIds` back-reference list.  `Group.add_element`
flattens groups on insertion, so the `elements` list of a `Group` only ever
holds such leaves. -/
structure Elem where
  id : String
  x : ℚ
  y : ℚ
  width : ℚ
  height : ℚ
  groupIds : List String
deriving DecidableEq

/-- State of a `Group` (primitives.py lines 72-159): its own id, the member
id set (`elementIds`), the member list, and the private `_x`, `_y`,
`_width`, `_height` fields written by `update_bbox`. -/
structure Group where
  id : String
  elementIds : List String
  elements : List Elem
  gx : ℚ
  gy : ℚ
  gwidth : ℚ
  gheight : ℚ
deriving DecidableEq

/-- `np.min` of the members' `x` (primitives.py lines 112-115), on the first
member `e` and the rest `es`: extract the `x` column, then fold `min`. -/
def member_min_x (e : Elem) (es : List Elem) : ℚ :=
  (es.map Elem.x).foldl min e.x

/-- `np.min` of the members' `y`. -/
def member_min_y (e : Elem) (es : List Elem) : ℚ :=
  (es.map Elem.y).foldl min e.y

/-- `np.max` of the members' `x + width` (primitives.py lines 118-121). -/
def member_max_x (e : Elem) (es : List Elem) : ℚ :=
  (es.map (fun f => f.x + f.width)).foldl max (e.x + e.width)

/-- `np.max` of the members' `y + height`. -/
def member_max_y (e : Elem) (es : List Elem) : ℚ :=
  (es.map (fun f => f.y + f.height)).foldl max (e.y + e.height)

/-- `Group.update_bbox` (primitives.py lines 110-127): recompute the private
bbox fields as `int()`-truncations of the members' extremes.  On an empty
member list `np.min` of an empty array raises, modelled by `none`. -/
def update_bbox (g : Group) : Option Group :=
  match g.elements with
  | [] => none
  | e :: es =>
    some { g with
           gx := (pyInt (member_min_x e es) : ℚ),
           gy := (pyInt (member_min_y e es) : ℚ),
           gwidth := (pyInt (member_max_x e es - member_min_x e es) : ℚ),
           gheight := (pyInt (member_max_y e es - member_min_y e es) : ℚ) }

/-- `Group.add_element` (primitives.py lines 85-96) for a leaf member: when
the member's id is new, append it, register the id, and append this group's
id to the member's `groupIds`; either way finish with `update_bbox`.  (For a
`Group` argument the source recursively adds each leaf member, which is a
sequence of these leaf insertions.) -/
def add_element (g : Group) (e : Elem) : Option Group :=
  if g.elementIds.contains e.id then update_bbox g
  else
    update_bbox
      { g with
        elements := g.elements ++ [{ e with groupIds := e.groupIds ++ [g.id] }],
        elementIds := g.elementIds ++ [e.id] }

/-- `Group.remove_element` (primitives.py lines 98-103): when the member's id
is present, drop the member and its id registration; either way finish with
`update_bbox`. -/
def remove_element (g : Group) (e : Elem) : Option Group :=
  if g.elementIds.contains e.id then
    update_bbox
      { g with
        elements := g.elements.eraseP (fun f => f.id == e.id),
        elementIds := g.elementIds.filter (fun i => i ≠ e.id) }
  else update_bbox g

/-- The `Group.x` setter (primitives.py lines 145-151): shift every member by
`value - _x` and store `value` in `_x`; `update_bbox` is *not* called. -/
def group_set_x (g : Group) (value : ℚ) : Group :=
  let delta := value - g.gx
  { g with
    elements := g.elements.map (fun e => { e with x := e.x + delta }),
    gx := value }

/-- The `Group.y` setter (primitives.py lines 153-159), symmetric to `x`. -/
def group_set_y (g : Group) (value : ℚ) : Group :=
  let delta := value - g.gy
  { g with
    elements := g.elements.map (fun e => { e with y := e.y + delta }),
    gy := value }

/-- The spec's union bounding box holds exactly: the group's stored position
is the members' top-left minimum and position+size their bottom-right
maximum (spec §8, first testable property). -/
def BboxExact (g : Group) : Prop :=
  ∃ e es, g.elements = e :: es ∧
    g.gx = member_min_x e es ∧ g.gy = member_min_y e es ∧
    g.gx + g.gwidth = member_max_x e es ∧ g.gy + g.gheight = member_max_y e es

/-- What `update_bbox` actually establishes: the stored fields are the
`int()`-truncations of the members' extremes. -/
def BboxTrunc (g : Group) : Prop :=
  ∃ e es, g.elements = e :: es ∧
    g.gx = (pyInt (member_min_x e es) : ℚ) ∧
    g.gy = (pyInt (member_min_y e es) : ℚ) ∧
    g.gwidth = (pyInt (member_max_x e es - member_min_x e es) : ℚ) ∧
    g.gheight = (pyInt (member_max_y e es - member_min_y e es) : ℚ)

/-- All members have integer coordinates and extents. -/
def IntCoords (es : List Elem) : Prop :=
  ∀ e ∈ es, e.x.den = 1 ∧ e.y.den = 1 ∧
    (e.x + e.width).den = 1 ∧ (e.y + e.height).den = 1

/-! ## primitives.py: the Line points setter -/

/-- State of a `Line`/`Arrow` relevant to the `points` setter: position,
point list, and the derived private size fields. -/
structure LineSt where
  x : ℚ
  y : ℚ
  points : List (ℚ × ℚ)
  width : ℚ
  height : ℚ
deriving DecidableEq

/-- Minimum of a nonempty list given as head and tail. -/
def qlist_min (a : ℚ) (l : List ℚ) : ℚ := l.foldl min a

/-- Maximum of a nonempty list given as head and tail. -/
def qlist_max (a : ℚ) (l : List ℚ) : ℚ := l.foldl max a

/-- The `Line.points` setter (primitives.py lines 335-357).  When the first
point is not `[0, 0]` the whole list is shifted by the first point; the
source then reads `xy_shift` from `values[0]` of the *already shifted* list,
which is `[0, 0]`, and adds that to the position.  Width and height are the
`int()`-truncated bounding box of the stored points.  An empty list makes
`values[0]` raise. -/
def line_set_points (l : LineSt) (values : List (ℚ × ℚ)) : Except PyErr LineSt :=
  match values with
  | [] => .error .indexError
  | v0 :: _ =>
    let shifted := values.map (fun p => (p.1 - v0.1, p.2 - v0.2))
    let newValues := if v0 = (0, 0) then values else shifted
    let xyShift : ℚ × ℚ :=
      if v0 = (0, 0) then (0, 0)
      else ((shifted.headD (0, 0)).1, (shifted.headD (0, 0)).2)
    let minX := pyInt (qlist_min ((newValues.headD (0, 0)).1) (newValues.tail.map Prod.fst))
    let minY := pyInt (qlist_min ((newValues.headD (0, 0)).2) (newValues.tail.map Prod.snd))
    let maxX := pyInt (qlist_max ((newValues.headD (0, 0)).1) (newValues.tail.map Prod.fst))
    let maxY := pyInt (qlist_max ((newValues.headD (0, 0)).2) (newValues.tail.map Prod.snd))
    .ok { x := l.x + xyShift.1,
          y := l.y + xyShift.2,
          points := newValues,
          width := ((maxX - minX : ℤ) : ℚ),
          height := ((maxY - minY : ℤ) : ℚ) }

/-! ## primitives.py: Text font and size -/

/-- State of a `Text` relevant to size derivation: the `_fontFamily`,
`_fontSize` attributes, the loaded `_font` object (determined by the family
and size passed to `ImageFont.truetype` at the last `_update_font` call), the
`_text`, and the private `_width`/`_height` written by `_update_size`. -/
structure TextSt where
  fontFamily : ℕ
  fontSize : ℕ
  font : ℕ × ℕ
  text : String
  width : ℤ
  height : ℤ
deriving DecidableEq

/-- An external font-metrics provider: `font.getsize(text)` as a function of
the loaded font (family, size) and the text. -/
def Measure : Type := ℕ × ℕ → String → ℤ × ℤ

/-- The `Text.text` setter (primitives.py lines 283-287): store the text and
call `_update_size`, which measures the text under the currently loaded
font. -/
def text_set_text (m : Measure) (t : TextSt) (v : String) : TextSt :=
  { t with text := v, width := (m t.font v).1, height := (m t.font v).2 }

/-- The `Text.fontFamily` setter (primitives.py lines 265-268): store the
family and call `_update_font`, which reloads the font; `_update_size` is
not called. -/
def text_set_fontFamily (t : TextSt) (v : ℕ) : TextSt :=
  { t with fontFamily := v, font := (v, t.fontSize) }

/-- The `Text.fontSize` setter (primitives.py lines 274-277): store the size
and call `_update_font`; `_update_size` is not called. -/
def text_set_fontSize (t : TextSt) (v : ℕ) : TextSt :=
  { t with fontSize := v, font := (t.fontFamily, v) }

/-- Attribute names for which the `Text` class defines a property setter
(primitives.py lines 261-295): `fontFamily`, `fontSize` and `text` have
`@x.setter` definitions; `width` and `height` are read-only properties. -/
def text_setter_names : List String := ["fontFamily", "fontSize", "text"]

/-- Assigning `width` on a `Text`: the property has no setter, so the
assignment raises `AttributeError` (were a setter registered it would store
the value). -/
def text_set_width (t : TextSt) (v : ℤ) : Except PyErr TextSt :=
  if text_setter_names.contains ("width") then .ok { t with width := v }
  else .error .attributeError

/-- Assigning `height` on a `Text`, symmetric to `width`. -/
def text_set_height (t : TextSt) (v : ℤ) : Except PyErr TextSt :=
  if text_setter_names.contains ("height") then .ok { t with height := v }
  else .error .attributeError

/-- The loaded font matches the stored family and size.  `__init__`
establishes this (it calls `_update_font` and ends with a `text`
re-assignment) and every setter maintains it. -/
def FontSync (t : TextSt) : Prop := t.font = (t.fontFamily, t.fontSize)

/-! ## primitives.py: the attribute surface of box-like and text shapes -/

/-- Every attribute name defined on a `Rectangle` or `Text` instance:
the methods and properties of `ExcaliDrawPrimitive` (primitives.py lines
16-69), the attributes its `__init__` sets, the keys of `BOX_DEFAULTS` /
`TEXT_DEFAULTS` applied in `Rectangle.__init__` and `Text.__init__`
(defaults.py), the `Text` properties, and `type`.  Attribute lookup of any
name outside this list raises `AttributeError`. -/
def box_attr_names : List String :=
  ["seed", "id", "export_keys", "export", "bbox", "center",
   "get_boundary_point", "get_quad_boundary_point", "type",
   "x", "y", "width", "height", "angle", "strokeColor", "backgroundColor",
   "fillStyle", "strokeStyle", "strokeWidth", "roughness", "opacity",
   "groupIds", "roundness", "version", "versionNonce", "isDeleted",
   "boundElements", "updated", "link", "locked",
   "text", "fontSize", "fontFamily", "textAlign", "verticalAlign",
   "baseline", "containerId", "originalText", "defaul_text"]

/-! ## sketch_builder.py: graphs, root selection, comparison loop -/

/-- The directed input graph as `render_stack_sketch` and
`render_comparitive_stack_sketch` consume it: nodes (label paired with the
`content` attribute) in `graph.nodes()` iteration order, and per-label
successor lists in `graph.successors` order. -/
structure CfgGraph where
  nodes : List (String × List String)
  succs : List (String × List String)
deriving DecidableEq

/-- `list(graph.successors(n))`. -/
def successors_of (g : CfgGraph) (n : String) : List String :=
  (g.succs.lookup n).getD []

/-- The `content` attribute of node `n`, `none` when `n` is not a node of
the graph. -/
def node_content (g : CfgGraph) (n : String) : Option (List String) :=
  g.nodes.lookup n

/-- `graph.in_degree()` for one node: the number of edges into it. -/
def in_degree (g : CfgGraph) (n : String) : ℕ :=
  (g.nodes.map (fun u => (successors_of g u.1).count n)).sum

/-- `[node for node, degree in graph.in_degree() if degree == 0]`
(sketch_builder.py line 294). -/
def roots_of (g : CfgGraph) : List String :=
  (g.nodes.map Prod.fst).filter (fun n => in_degree g n == 0)

/-- Root selection of `render_stack_sketch` (sketch_builder.py lines
294-295): the code takes `roots[0]` unconditionally, so an empty root list
raises `IndexError` and any additional roots are silently ignored. -/
def select_root (g : CfgGraph) : Except PyErr String :=
  match roots_of g with
  | [] => .error .indexError
  | r :: _ => .ok r

/-- The per-node comparison loop of `render_comparitive_stack_sketch`
(sketch_builder.py lines 416-437), specialised to one comparison graph.
For each node of the comparison graph in order: a node absent from the base
graph is marked rendered; a node present in the base graph is marked
not-rendered when its content and successor list equal the base's, and
otherwise is marked rendered and a match arrow is requested from
`create_binding_arrows` — whose first step, resolving `get_edge_midpoint`
on the base node's bounding rectangle, consults the attribute surface and
raises `AttributeError` when the name is absent, aborting the whole render.
Returns the render flags in loop order and the `(base, comparison)` node
pairs for which an arrow was built. -/
def compare_nodes (base cmp : CfgGraph) :
    List (String × List String) → List (String × Bool) → List (String × String) →
    Except PyErr (List (String × Bool) × List (String × String))
  | [], flags, arrows => .ok (flags, arrows)
  | (name, content) :: rest, flags, arrows =>
    match node_content base name with
    | some baseContent =>
      if content == baseContent && successors_of cmp name == successors_of base name then
        compare_nodes base cmp rest (flags ++ [(name, false)]) arrows
      else if box_attr_names.contains ("get_edge_midpoint") then
        compare_nodes base cmp rest (flags ++ [(name, true)]) (arrows ++ [(name, name)])
      else .error .attributeError
    | none => compare_nodes base cmp rest (flags ++ [(name, true)]) arrows

/-- The comparison loop run over all nodes of the comparison graph. -/
def render_comparison_loop (base cmp : CfgGraph) :
    Except PyErr (List (String × Bool) × List (String × String)) :=
  compare_nodes base cmp cmp.nodes [] []

/-! ## primitives.py: real-valued boundary geometry -/

open Real in
/-- `math.atan2 y x`: the angle of the point `(x, y)`, in `(-π, π]`. -/
noncomputable def atan2 (y x : ℝ) : ℝ :=
  if 0 < x then arctan (y / x)
  else if x = 0 then
    if 0 < y then π / 2 else if y < 0 then -(π / 2) else 0
  else if 0 ≤ y then arctan (y / x) + π
  else arctan (y / x) - π

/-- Python `a % m` on floats, for real arguments and a positive modulus. -/
noncomputable def pymodR (a m : ℝ) : ℝ := a - m * ⌊a / m⌋

/-- Geometry of a box-like or text shape: position (top-left corner) and
size, as read by the boundary-point methods. -/
structure ShapeR where
  id : String
  x : ℝ
  y : ℝ
  width : ℝ
  height : ℝ

/-- The `center` property (primitives.py lines 38-40). -/
noncomputable def center (s : ShapeR) : ℝ × ℝ :=
  (s.x + s.width / 2, s.y + s.height / 2)

open Real in
/-- `ExcaliDrawPrimitive.get_quad_boundary_point` (primitives.py lines
56-69): map the angle `theta` to the centre of one of the four bounding-box
edges, pushed outward by `padding`.  The Python booleans
`sign_indicator` enter the arithmetic as `0`/`1`. -/
noncomputable def get_quad_boundary_point (s : ShapeR) (theta padding : ℝ) : ℝ × ℝ :=
  let theta_lim := atan2 s.height s.width
  if |theta| < theta_lim ∨ π - theta_lim < |theta| then
    let sign : ℝ := if |theta| < π / 2 then 1 else 0
    (s.x + s.width * sign + padding * (-1 + 2 * sign), s.y + s.height / 2)
  else
    let sign : ℝ := if 0 < theta then 1 else 0
    (s.x + s.width / 2, s.y + s.height * sign + padding * (-1 + 2 * sign))

/-- The output of `create_binding_arrows`: the `Arrow` with its position,
its (re-anchored) point list, the `startBinding`/`endBinding` records
`{elementId, focus: 0, gap: padding}`, and the arrowheads.  The
`{id, type: arrow}` back-references appended to both elements'
`boundElements` are mirrored by the binding records. -/
structure ArrowR where
  x : ℝ
  y : ℝ
  points : List (ℝ × ℝ)
  startBindingId : Option String
  endBindingId : Option String
  gap : ℝ
  startArrowhead : Option String
  endArrowhead : Option String

open Real in
/-- `SketchBuilder.create_binding_arrows` (sketch_builder.py lines 197-231).
The asserts on the element kinds are discharged by the `ShapeR` argument
type.  After computing the centre-to-centre angle `theta`, its `(-π, π]`
normalisation, and the reciprocal angle, the code calls
`element_1.get_edge_midpoint` — a name carried by no class in
primitives.py, so the lookup against the attribute surface decides between
raising `AttributeError` and the anchor computation (which, per the only
edge-midpoint method the shape model defines, is
`get_quad_boundary_point`). -/
noncomputable def create_binding_arrows (e1 e2 : ShapeR) (padding : ℝ)
    (startArrowhead endArrowhead : Option String) : Except PyErr ArrowR :=
  let c1 := center e1
  let c2 := center e2
  let theta0 := atan2 (c2.2 - c1.2) (c2.1 - c1.1)
  let theta := pymodR (theta0 + π) (2 * π) - π
  let inverted_theta := pymodR theta (2 * π) - π
  if box_attr_names.contains ("get_edge_midpoint") then
    let p1 := get_quad_boundary_point e1 theta padding
    let p2 := get_quad_boundary_point e2 inverted_theta padding
    .ok { x := p1.1, y := p1.2,
          points := [(0, 0), (p2.1 - p1.1, p2.2 - p1.2)],
          startBindingId := some e1.id, endBindingId := some e2.id,
          gap := padding,
          startArrowhead := startArrowhead, endArrowhead := endArrowhead }
  else .error .attributeError

/-- The specification's description of `edgeMidpoint` (spec §4.1): the
result is one of the four edge midpoints of the bounding box offset outward
by the padding — a vertical edge when `|theta|` is below `atan2(height,
width)` or above `π` minus it (right edge iff `|theta| < π/2`), a horizontal
edge otherwise (bottom edge iff `theta > 0`).  Written from the spec's
words, to be compared with `get_quad_boundary_point`. -/
def EdgeMidpointSnap (s : ShapeR) (theta padding : ℝ) : Prop :=
  ((|theta| < Real.arctan (s.height / s.width) ∨
      Real.pi - Real.arctan (s.height / s.width) < |theta|) ∧
    ((|theta| < Real.pi / 2 ∧
        get_quad_boundary_point s theta padding =
          (s.x + s.width + padding, (s.y + (s.y + s.height)) / 2)) ∨
     (Real.pi / 2 ≤ |theta| ∧
        get_quad_boundary_point s theta padding =
          (s.x - padding, (s.y + (s.y + s.height)) / 2)))) ∨
  ((Real.arctan (s.height / s.width) ≤ |theta| ∧
      |theta| ≤ Real.pi - Real.arctan (s.height / s.width)) ∧
    ((0 < theta ∧
        get_quad_boundary_point s theta padding =
          ((s.x + (s.x + s.width)) / 2, s.y + s.height + padding)) ∨
     (theta ≤ 0 ∧
        get_quad_boundary_point s theta padding =
          ((s.x + (s.x + s.width)) / 2, s.y - padding))))

/-! ## Concrete instances used by counterexamples and witnesses -/

/-- The value-channel orbit of the repair loop from `red_loop_entry`. -/
def repair_values : List ℚ := [1, 9/10, 4/5, 7/10, 3/5, 1/2, 2/5]

/-- A freshly constructed empty `Group`. -/
def group_fresh : Group := ⟨"g", [], [], 0, 0, 0, 0⟩

/-- A member whose `x` is the float `0.5`. -/
def elem_half : Elem := ⟨"e", 1/2, 0, 1, 1, []⟩

/-- The group state after `group_fresh.add_element(elem_half)`. -/
def group_after_half : Group :=
  ⟨"g", ["e"], [⟨"e", 1/2, 0, 1, 1, ["g"]⟩], 0, 0, 1, 1⟩

/-- A second fresh `Group`, for the integer-coordinate witness. -/
def group_w0 : Group := ⟨"g2", [], [], 0, 0, 0, 0⟩

/-- An integer-coordinate member. -/
def elem_w : Elem := ⟨"e2", 1, 2, 3, 4, []⟩

/-- The group state after `group_w0.add_element(elem_w)`. -/
def group_w1 : Group := ⟨"g2", ["e2"], [⟨"e2", 1, 2, 3, 4, ["g2"]⟩], 1, 2, 3, 4⟩

/-- A `Line` in its default state (`points = [[0, 0], [100, 100]]`). -/
def line_ex : LineSt := ⟨0, 0, [(0, 0), (100, 100)], 100, 100⟩

/-- The state `line_ex` reaches after assigning `points = [[5, 3], [10, 10]]`. -/
def line_ex_out : LineSt := ⟨0, 0, [(0, 0), (5, 7)], 5, 7⟩

/-- A font-metrics provider whose measurement depends on the font size:
width `size · length`, height `size`. -/
def measure_px : Measure := fun font s => ((font.2 : ℤ) * s.length, (font.2 : ℤ))

/-- A `Text` state measured under `measure_px`: code font 3 at size 20 with
text `ab`, so width 40 and height 20, and the loaded font in sync. -/
def textW : TextSt := ⟨3, 20, (3, 20), "ab", 40, 20⟩

/-- A graph with the single in-degree-zero node `A`. -/
def graph_single_root : CfgGraph := ⟨[("A", [])], [("A", [])]⟩

/-- A graph with two in-degree-zero nodes `A` and `B`. -/
def graph_two_roots : CfgGraph := ⟨[("A", []), ("B", [])], []⟩

/-- Base graph for the comparative-diff counterexample: `cfg → A`. -/
def base_graph_ex : CfgGraph :=
  ⟨[("cfg", ["root"]), ("A", ["hello"])], [("cfg", ["A"]), ("A", [])]⟩

/-- Comparison graph: identical to `base_graph_ex` except `A`'s content. -/
def cmp_graph_ex : CfgGraph :=
  ⟨[("cfg", ["root"]), ("A", ["world"])], [("cfg", ["A"]), ("A", [])]⟩

/-- The unit square at the origin. -/
def shapeW : ShapeR := ⟨"w", 0, 0, 1, 1⟩

/-! # Theorems -/

/-- C10 counterexample: a `Rectangle` constructed with an explicit id keeps
that id readable — its `__init__` kwargs loop re-applies the argument — so
the claim that id reads fail on every primitive built with an explicit id is
false. -/
theorem rectangle_explicit_id_readable_counterexample :
    read_id (rectangle_init_id (some ("custom-id")) ("fresh-uuid")) = .ok ("custom-id") := rfl

/-- C10 (amended): the base `ExcaliDrawPrimitive.__init__` indeed skips the
id assignment for a non-None argument, and `Group` — which does not
re-apply kwargs — therefore ends without the attribute, so reading its id
raises `AttributeError`; but `Rectangle` (likewise `Diamond`, `Ellipse`,
`Text`, `Line`, `Arrow`) re-applies kwargs and stores the explicit id.  A
construction without an id argument always yields the fresh uuid. -/
theorem primitive_init_id_assignment (s f : String) :
    excalidraw_primitive_init_id (some s) f = none ∧
    group_init_id (some s) f = none ∧
    read_id (group_init_id (some s) f) = .error .attributeError ∧
    rectangle_init_id (some s) f = some s ∧
    excalidraw_primitive_init_id none f = some f ∧
    group_init_id none f = some f ∧
    rectangle_init_id none f = some f :=
  ⟨rfl, rfl, rfl, rfl, rfl, rfl, rfl⟩

/-- C8 counterexample: at the random draw `r = 1/2` the hue rotation is
exactly 180 degrees, outside the claimed interval `[90°, 180°)`. -/
theorem sample_color_hue_rotation_half_counterexample :
    (0 ≤ (1/2 : ℚ) ∧ (1/2 : ℚ) < 1) ∧
    360 * sample_color_hue_rotation (1/2) = 180 ∧
    ¬ (360 * sample_color_hue_rotation (1/2) < 180) := by
  norm_num [sample_color_hue_rotation]

/-- C8 (amended): for every draw `r ∈ [0, 1)` the hue rotation
`0.25 + 0.5 · r` lies in `[90°, 270°)` (not `[90°, 180°)`), and the stored
hue is the input hue plus this rotation, reduced mod 1. -/
theorem sample_color_hue_rotation_range (r : ℚ) (h0 : 0 ≤ r) (h1 : r < 1) :
    (90 ≤ 360 * sample_color_hue_rotation r ∧
      360 * sample_color_hue_rotation r < 270) ∧
    (∀ h : ℚ, sample_color_new_hue h r = h + sample_color_hue_rotation r ∨
      sample_color_new_hue h r = h + sample_color_hue_rotation r - 1) := by
  unfold sample_color_hue_rotation sample_color_new_hue
  refine ⟨⟨by linarith, by linarith⟩, fun h => ?_⟩
  by_cases hc : h + 25/100 + 5/10 * r > 1
  · right
    rw [if_pos hc]
    ring
  · left
    rw [if_neg hc]
    ring

/-- C8 witness: the amended rotation bound at the concrete draw `r = 0`. -/
theorem sample_color_hue_rotation_range_witness :
    (0 ≤ (0 : ℚ) ∧ (0 : ℚ) < 1) ∧
    (90 ≤ 360 * sample_color_hue_rotation 0 ∧
      360 * sample_color_hue_rotation 0 < 270) :=
  ⟨⟨le_refl 0, by norm_num⟩,
   (sample_color_hue_rotation_range 0 (le_refl 0) (by norm_num)).1⟩

/-- C5 counterexample: a graph with two in-degree-zero nodes is not
rejected — `render_stack_sketch` silently proceeds with the first one. -/
theorem select_root_two_roots_counterexample :
    (roots_of graph_two_roots).length = 2 ∧
    select_root graph_two_roots = .ok ("A") := by
  constructor
  · rfl
  · rfl

/-- C5 (amended): root selection raises (an `IndexError`, from the
unguarded `roots[0]`) exactly when the graph has no in-degree-zero node;
whenever at least one exists — even several — it proceeds with the first
in node order. -/
theorem select_root_error_iff_no_roots (g : CfgGraph) :
    (select_root g = .error .indexError ↔ roots_of g = []) ∧
    (∀ r rest, roots_of g = r :: rest → select_root g = .ok r) := by
  constructor
  · unfold select_root
    cases h : roots_of g <;> simp
  · intro r rest h
    unfold select_root
    rw [h]

/-- C5 witness: the amended statement applied to the one-root graph. -/
theorem select_root_error_iff_no_roots_witness :
    roots_of graph_single_root = ["A"] ∧
    select_root graph_single_root = .ok ("A") :=
  ⟨rfl, (select_root_error_iff_no_roots graph_single_root).2 ("A") [] rfl⟩

/-- C2: `create_binding_arrows` never reaches anchor computation, arrow
construction or binding registration — the method name `get_edge_midpoint`
it calls on its first endpoint is defined by no class in primitives.py, so
every invocation raises `AttributeError` right after computing the
centre-to-centre angle. -/
theorem create_binding_arrows_method_missing (e1 e2 : ShapeR) (padding : ℝ)
    (sA eA : Option String) :
    box_attr_names.contains ("get_edge_midpoint") = false ∧
    create_binding_arrows e1 e2 padding sA eA = .error .attributeError := by
  refine ⟨rfl, ?_⟩
  unfold create_binding_arrows
  rfl

/-- C3: in comparative diff rendering, a comparison node that differs from
its base counterpart does not get its one match arrow: the arrow synthesis
call raises `AttributeError` (no class defines `get_edge_midpoint`), so the
whole comparison render aborts with no arrows and no drawable output.
Concretely, for a base `cfg → A` and a comparison differing only in `A`'s
content, the node loop returns the error instead of one arrow. -/
theorem comparative_diff_arrow_synthesis_crashes :
    node_content cmp_graph_ex ("A") ≠ node_content base_graph_ex ("A") ∧
    successors_of cmp_graph_ex ("A") = successors_of base_graph_ex ("A") ∧
    node_content cmp_graph_ex ("cfg") = node_content base_graph_ex ("cfg") ∧
    render_comparison_loop base_graph_ex cmp_graph_ex = .error .attributeError := by
  refine ⟨by decide, rfl, rfl, rfl⟩

/-- C4: evaluating the `points` setter at `pts = [[5, 3], [10, 10]]` on a
default line at position `(0, 0)`: the stored points are correctly
re-anchored to `[[0, 0], [5, 7]]`, but the position stays `(0, 0)` instead
of moving to `(0, 0) + (5, 3)` — the source computes `xy_shift` from the
already-shifted list, whose first point is `[0, 0]`, contradicting its own
`move all the points, and the x, y values` comment. -/
theorem line_points_setter_never_shifts_position :
    line_set_points line_ex [(5, 3), (10, 10)] = .ok line_ex_out ∧
    line_ex_out.points = [(0, 0), (5, 7)] ∧
    line_ex_out.x = line_ex.x ∧
    line_ex_out.y = line_ex.y ∧
    line_ex_out.x ≠ line_ex.x + 5 := by
  refine ⟨?_, rfl, rfl, rfl, by norm_num [line_ex, line_ex_out]⟩
  norm_num [line_set_points, line_ex, line_ex_out, qlist_min, qlist_max, pyInt]

/-- C7 counterexample: under the size-sensitive metrics `measure_px`,
assigning `fontSize := 30` on a synced `Text` leaves `width = 40`, while
measuring the current text under the current font family and size gives
`60` — the `fontSize` setter reloads the font but never re-measures. -/
theorem text_font_size_stale_measure_counterexample :
    FontSync textW ∧
    (text_set_fontSize textW 30).width = 40 ∧
    (measure_px ((text_set_fontSize textW 30).fontFamily,
        (text_set_fontSize textW 30).fontSize)
      ((text_set_fontSize textW 30).text)).1 = 60 ∧
    (text_set_fontSize textW 30).width ≠
      (measure_px ((text_set_fontSize textW 30).fontFamily,
          (text_set_fontSize textW 30).fontSize)
        ((text_set_fontSize textW 30).text)).1 := by
  refine ⟨rfl, rfl, rfl, by decide⟩

/-- C7 (amended): a `text` assignment re-measures under the currently
loaded font (which a synced state keeps equal to the current family and
size); `fontFamily` and `fontSize` assignments reload the font but leave
width and height untouched until the next `text` assignment; and `width` /
`height` have no setters, so assigning them raises `AttributeError`.  All
three setters preserve font sync. -/
theorem text_size_remeasured_only_on_text_assignment (m : Measure) (t : TextSt)
    (hf : FontSync t) :
    (∀ v, (text_set_text m t v).width =
        (m ((text_set_text m t v).fontFamily, (text_set_text m t v).fontSize) v).1 ∧
      (text_set_text m t v).height =
        (m ((text_set_text m t v).fontFamily, (text_set_text m t v).fontSize) v).2 ∧
      FontSync (text_set_text m t v)) ∧
    (∀ v, (text_set_fontFamily t v).width = t.width ∧
      (text_set_fontFamily t v).height = t.height ∧
      FontSync (text_set_fontFamily t v)) ∧
    (∀ v, (text_set_fontSize t v).width = t.width ∧
      (text_set_fontSize t v).height = t.height ∧
      FontSync (text_set_fontSize t v)) ∧
    (∀ v, text_set_width t v = .error .attributeError) ∧
    (∀ v, text_set_height t v = .error .attributeError) := by
  unfold FontSync at hf
  exact ⟨fun v => by simp [text_set_text, FontSync, hf],
    fun v => ⟨rfl, rfl, rfl⟩, fun v => ⟨rfl, rfl, rfl⟩,
    fun v => rfl, fun v => rfl⟩

/-- The loop entry state for `#ff0000` with draw `5/6` is pure saturated
blue-ish HSV `(2/3, 9/10, 1)`. -/
theorem red_loop_entry_eval : red_loop_entry = (2/3, 9/10, 1) := by
  norm_num [red_loop_entry, sample_color_pre_loop, rgb_to_hsv, sample_color_new_hue,
    pymodQ, min_def, max_def]

/-- Every state in the orbit keeps hue `2/3`, saturation `9/10`, and a value
from `repair_values`, and the loop guard holds there. -/
theorem repair_orbit_guard : ∀ v ∈ repair_values,
    contrast_repair_continues (2/3, 9/10, v) := by
  intro v hv
  fin_cases hv <;>
    norm_num [contrast_repair_continues, sample_color_luminance, hsv_to_rgb,
      to_255, luminance_of_ints, pyInt]

/-- The loop body maps the orbit into itself. -/
theorem repair_orbit_step : ∀ v ∈ repair_values,
    ∃ w ∈ repair_values, contrast_repair_step (2/3, 9/10, v) = (2/3, 9/10, w) := by
  intro v hv
  fin_cases hv
  · exact ⟨9/10, by norm_num [repair_values], by norm_num [contrast_repair_step, max_def]⟩
  · exact ⟨4/5, by norm_num [repair_values], by norm_num [contrast_repair_step, max_def]⟩
  · exact ⟨7/10, by norm_num [repair_values], by norm_num [contrast_repair_step, max_def]⟩
  · exact ⟨3/5, by norm_num [repair_values], by norm_num [contrast_repair_step, max_def]⟩
  · exact ⟨1/2, by norm_num [repair_values], by norm_num [contrast_repair_step, max_def]⟩
  · exact ⟨2/5, by norm_num [repair_values], by norm_num [contrast_repair_step, max_def]⟩
  · exact ⟨1/2, by norm_num [repair_values], by norm_num [contrast_repair_step, min_def]⟩

/-- Every iterate of the loop body from `red_loop_entry` stays in the
orbit. -/
theorem repair_iterates_in_orbit (n : ℕ) :
    ∃ v ∈ repair_values,
      contrast_repair_step^[n] red_loop_entry = (2/3, 9/10, v) := by
  induction n with
  | zero =>
    exact ⟨1, by norm_num [repair_values],
      by rw [Function.iterate_zero_apply, red_loop_entry_eval]⟩
  | succ n ih =>
    obtain ⟨v, hv, heq⟩ := ih
    obtain ⟨w, hw, hstep⟩ := repair_orbit_step v hv
    exact ⟨w, hw, by rw [Function.iterate_succ_apply', heq, hstep]⟩

/-- C9: for the input color `#ff0000` and the random draw `5/6`,
`sample_color` reaches the repair loop at HSV `(2/3, 9/10, 1)` and the loop
guard holds after every number of body iterations — the value channel
decays to `2/5` and then oscillates between `1/2` and `2/5`, both with
luminance below the `0.175` threshold, so raising never happens and the
loop never exits (equivalently, `contrast_repair_terminates red_loop_entry`
is false) and no color with black-text contrast `≥ 4.5` is ever returned. -/
theorem sample_color_contrast_repair_nonterminating :
    red_loop_entry = (2/3, 9/10, 1) ∧
    ∀ n : ℕ, contrast_repair_continues (contrast_repair_step^[n] red_loop_entry) := by
  refine ⟨red_loop_entry_eval, fun n => ?_⟩
  obtain ⟨v, hv, heq⟩ := repair_iterates_in_orbit n
  rw [heq]
  exact repair_orbit_guard v hv

/-- A `min`/`max` fold over a list returns its seed or one of its
entries. -/
theorem foldl_choice {op : ℚ → ℚ → ℚ} (hop : ∀ a b, op a b = a ∨ op a b = b)
    (l : List ℚ) (a : ℚ) :
    l.foldl op a = a ∨ l.foldl op a ∈ l := by
  induction l generalizing a with
  | nil => exact Or.inl rfl
  | cons x xs ih =>
    rw [List.foldl_cons]
    rcases ih (op a x) with h | h
    · rcases hop a x with hm | hm
      · exact Or.inl (by rw [h, hm])
      · exact Or.inr (by rw [h, hm]; exact List.mem_cons_self x xs)
    · exact Or.inr (List.mem_cons_of_mem x h)

/-- A `min`/`max` fold over integers stays integer. -/
theorem foldl_choice_den {op : ℚ → ℚ → ℚ} (hop : ∀ a b, op a b = a ∨ op a b = b)
    (l : List ℚ) (a : ℚ) (ha : a.den = 1) (hl : ∀ q ∈ l, q.den = 1) :
    (l.foldl op a).den = 1 := by
  rcases foldl_choice hop l a with h | h
  · rw [h]; exact ha
  · exact hl _ h

/-- `int()` is the identity on an integer rational. -/
theorem pyInt_den_one {q : ℚ} (h : q.den = 1) : (pyInt q : ℚ) = q := by
  have hq : (q.num : ℚ) = q := (Rat.den_eq_one_iff q).mp h
  unfold pyInt
  split_ifs with h0
  · rw [← hq, Int.floor_intCast]
  · rw [← hq, Int.ceil_intCast]

/-- Difference of integer rationals is integer. -/
theorem den_one_sub {a b : ℚ} (ha : a.den = 1) (hb : b.den = 1) : (a - b).den = 1 := by
  have hA : (a.num : ℚ) = a := (Rat.den_eq_one_iff a).mp ha
  have hB : (b.num : ℚ) = b := (Rat.den_eq_one_iff b).mp hb
  rw [← hA, ← hB, ← Int.cast_sub]
  exact Rat.den_intCast _

/-- Shifting every entry commutes with a `min` fold. -/
theorem foldl_min_add (l : List ℚ) (a d : ℚ) :
    (l.map (fun q => q + d)).foldl min (a + d) = l.foldl min a + d := by
  induction l generalizing a with
  | nil => rfl
  | cons x xs ih =>
    simp only [List.map_cons, List.foldl_cons]
    have hmin : min (a + d) (x + d) = min a x + d := by
      rcases le_total a x with h | h
      · rw [min_eq_left h, min_eq_left (by linarith)]
      · rw [min_eq_right h, min_eq_right (by linarith)]
    rw [hmin, ih]

/-- Shifting every entry commutes with a `max` fold. -/
theorem foldl_max_add (l : List ℚ) (a d : ℚ) :
    (l.map (fun q => q + d)).foldl max (a + d) = l.foldl max a + d := by
  induction l generalizing a with
  | nil => rfl
  | cons x xs ih =>
    simp only [List.map_cons, List.foldl_cons]
    have hmax : max (a + d) (x + d) = max a x + d := by
      rcases le_total a x with h | h
      · rw [max_eq_right h, max_eq_right (by linarith)]
      · rw [max_eq_left h, max_eq_left (by linarith)]
    rw [hmax, ih]

/-- `update_bbox` writes exactly the truncated union. -/
theorem update_bbox_trunc {g gA : Group} (h : update_bbox g = some gA) :
    BboxTrunc gA := by
  unfold update_bbox at h
  cases hel : g.elements with
  | nil => rw [hel] at h; exact absurd h (by simp)
  | cons e es =>
    rw [hel] at h
    injection h with h
    subst h
    exact ⟨e, es, rfl, rfl, rfl, rfl, rfl⟩

/-- The truncated union is the exact union on integer members. -/
theorem trunc_int_exact {gA : Group} (ht : BboxTrunc gA)
    (hi : IntCoords gA.elements) : BboxExact gA := by
  obtain ⟨e, es, hel, hx, hy, hw, hh⟩ := ht
  have hmem : ∀ f ∈ es, f ∈ gA.elements := by
    intro f hf; rw [hel]; exact List.mem_cons_of_mem e hf
  have hehead : e ∈ gA.elements := by rw [hel]; exact List.mem_cons_self e es
  have hminx : (member_min_x e es).den = 1 := by
    refine foldl_choice_den (fun a b => min_choice a b) _ _ (hi e hehead).1 ?_
    intro q hq
    obtain ⟨f, hf, rfl⟩ := List.mem_map.mp hq
    exact (hi f (hmem f hf)).1
  have hminy : (member_min_y e es).den = 1 := by
    refine foldl_choice_den (fun a b => min_choice a b) _ _ (hi e hehead).2.1 ?_
    intro q hq
    obtain ⟨f, hf, rfl⟩ := List.mem_map.mp hq
    exact (hi f (hmem f hf)).2.1
  have hmaxx : (member_max_x e es).den = 1 := by
    refine foldl_choice_den (fun a b => max_choice a b) _ _ (hi e hehead).2.2.1 ?_
    intro q hq
    obtain ⟨f, hf, rfl⟩ := List.mem_map.mp hq
    exact (hi f (hmem f hf)).2.2.1
  have hmaxy : (member_max_y e es).den = 1 := by
    refine foldl_choice_den (fun a b => max_choice a b) _ _ (hi e hehead).2.2.2 ?_
    intro q hq
    obtain ⟨f, hf, rfl⟩ := List.mem_map.mp hq
    exact (hi f (hmem f hf)).2.2.2
  refine ⟨e, es, hel, ?_, ?_, ?_, ?_⟩
  · rw [hx, pyInt_den_one hminx]
  · rw [hy, pyInt_den_one hminy]
  · rw [hx, hw, pyInt_den_one hminx, pyInt_den_one (den_one_sub hmaxx hminx)]
    ring
  · rw [hy, hh, pyInt_den_one hminy, pyInt_den_one (den_one_sub hmaxy hminy)]
    ring

/-- C1 counterexample: adding a single member at `x = 0.5` to a fresh
group stores `gx = 0` — the `int()` truncation in `update_bbox` — which is
not the minimum `0.5` of the members' top-left `x`.  The claimed exact
union equality is therefore false. -/
theorem group_bbox_fractional_member_counterexample :
    add_element group_fresh elem_half = some group_after_half ∧
    group_after_half.elements = [⟨"e", 1/2, 0, 1, 1, ["g"]⟩] ∧
    member_min_x ⟨"e", 1/2, 0, 1, 1, ["g"]⟩ [] = 1/2 ∧
    group_after_half.gx ≠ member_min_x ⟨"e", 1/2, 0, 1, 1, ["g"]⟩ [] := by
  refine ⟨?_, rfl, rfl, by norm_num [group_after_half, member_min_x]⟩
  simp only [add_element, update_bbox, group_fresh, elem_half, group_after_half,
    member_min_x, member_min_y, member_max_x, member_max_y]
  norm_num [pyInt]

/-- C1 (amended): after every `add_element` / `remove_element` that leaves
the group nonempty, the stored bounding box is the `int()`-truncation of
the members' union (`gx = int(min x)`, `gy = int(min y)`,
`gwidth = int(max (x+w) − min x)`, `gheight = int(max (y+h) − min y)`);
when every member has integer coordinates and extents this is exactly the
union claimed by the spec, and the position setters (which translate every
member) preserve the exact union. -/
theorem group_bbox_truncated_union_after_mutation :
    (∀ g e gA, add_element g e = some gA → BboxTrunc gA) ∧
    (∀ g e gA, remove_element g e = some gA → BboxTrunc gA) ∧
    (∀ g e gA, add_element g e = some gA → IntCoords gA.elements → BboxExact gA) ∧
    (∀ g e gA, remove_element g e = some gA → IntCoords gA.elements → BboxExact gA) ∧
    (∀ g v, BboxExact g → BboxExact (group_set_x g v)) ∧
    (∀ g v, BboxExact g → BboxExact (group_set_y g v)) := by
  have hadd : ∀ g e gA, add_element g e = some gA → BboxTrunc gA := by
    intro g e gA h
    unfold add_element at h
    split_ifs at h <;> exact update_bbox_trunc h
  have hrem : ∀ g e gA, remove_element g e = some gA → BboxTrunc gA := by
    intro g e gA h
    unfold remove_element at h
    split_ifs at h <;> exact update_bbox_trunc h
  have hsetx : ∀ g v, BboxExact g → BboxExact (group_set_x g v) := by
    intro g v hg
    obtain ⟨e, es, hel, hx, hy, hxw, hyh⟩ := hg
    refine ⟨{ e with x := e.x + (v - g.gx) },
      es.map (fun f => { f with x := f.x + (v - g.gx) }), ?_, ?_, ?_, ?_, ?_⟩
    · show g.elements.map _ = _
      rw [hel, List.map_cons]
    · show v = member_min_x _ _
      unfold member_min_x
      simp only [List.map_map]
      have hcomp : (Elem.x ∘ fun f => { f with x := f.x + (v - g.gx) }) =
          fun f : Elem => f.x + (v - g.gx) := rfl
      rw [hcomp, show es.map (fun f : Elem => f.x + (v - g.gx)) =
          (es.map Elem.x).map (fun q => q + (v - g.gx)) by rw [List.map_map]; rfl]
      rw [foldl_min_add]
      rw [show (es.map Elem.x).foldl min e.x = member_min_x e es from rfl, ← hx]
      ring
    · show g.gy = member_min_y _ _
      unfold member_min_y
      simp only [List.map_map]
      rw [show es.map (Elem.y ∘ fun f => { f with x := f.x + (v - g.gx) }) =
          es.map Elem.y from rfl]
      exact hy
    · show v + g.gwidth = member_max_x _ _
      unfold member_max_x
      simp only [List.map_map]
      have hcomp : ((fun f : Elem => f.x + f.width) ∘
          fun f => { f with x := f.x + (v - g.gx) }) =
          fun f : Elem => (f.x + f.width) + (v - g.gx) := by
        funext f
        show f.x + (v - g.gx) + f.width = f.x + f.width + (v - g.gx)
        ring
      rw [hcomp, show es.map (fun f : Elem => (f.x + f.width) + (v - g.gx)) =
          (es.map (fun f : Elem => f.x + f.width)).map (fun q => q + (v - g.gx)) by
        rw [List.map_map]; rfl]
      rw [show e.x + (v - g.gx) + e.width = (e.x + e.width) + (v - g.gx) by ring]
      rw [foldl_max_add]
      rw [show (es.map (fun f : Elem => f.x + f.width)).foldl max (e.x + e.width) =
          member_max_x e es from rfl, ← hxw]
      ring
    · show g.gy + g.gheight = member_max_y _ _
      unfold member_max_y
      simp only [List.map_map]
      rw [show es.map ((fun f : Elem => f.y + f.height) ∘
          fun f => { f with x := f.x + (v - g.gx) }) =
          es.map (fun f : Elem => f.y + f.height) from rfl]
      exact hyh
  have hsety : ∀ g v, BboxExact g → BboxExact (group_set_y g v) := by
    intro g v hg
    obtain ⟨e, es, hel, hx, hy, hxw, hyh⟩ := hg
    refine ⟨{ e with y := e.y + (v - g.gy) },
      es.map (fun f => { f with y := f.y + (v - g.gy) }), ?_, ?_, ?_, ?_, ?_⟩
    · show g.elements.map _ = _
      rw [hel, List.map_cons]
    · show g.gx = member_min_x _ _
      unfold member_min_x
      simp only [List.map_map]
      rw [show es.map (Elem.x ∘ fun f => { f with y := f.y + (v - g.gy) }) =
          es.map Elem.x from rfl]
      exact hx
    · show v = member_min_y _ _
      unfold member_min_y
      simp only [List.map_map]
      have hcomp : (Elem.y ∘ fun f => { f with y := f.y + (v - g.gy) }) =
          fun f : Elem => f.y + (v - g.gy) := rfl
      rw [hcomp, show es.map (fun f : Elem => f.y + (v - g.gy)) =
          (es.map Elem.y).map (fun q => q + (v - g.gy)) by rw [List.map_map]; rfl]
      rw [foldl_min_add]
      rw [show (es.map Elem.y).foldl min e.y = member_min_y e es from rfl, ← hy]
      ring
    · show g.gx + g.gwidth = member_max_x _ _
      unfold member_max_x
      simp only [List.map_map]
      rw [show es.map ((fun f : Elem => f.x + f.width) ∘
          fun f => { f with y := f.y + (v - g.gy) }) =
          es.map (fun f : Elem => f.x + f.width) from rfl]
      exact hxw
    · show v + g.gheight = member_max_y _ _
      unfold member_max_y
      simp only [List.map_map]
      have hcomp : ((fun f : Elem => f.y + f.height) ∘
          fun f => { f with y := f.y + (v - g.gy) }) =
          fun f : Elem => (f.y + f.height) + (v - g.gy) := by
        funext f
        show f.y + (v - g.gy) + f.height = f.y + f.height + (v - g.gy)
        ring
      rw [hcomp, show es.map (fun f : Elem => (f.y + f.height) + (v - g.gy)) =
          (es.map (fun f : Elem => f.y + f.height)).map (fun q => q + (v - g.gy)) by
        rw [List.map_map]; rfl]
      rw [show e.y + (v - g.gy) + e.height = (e.y + e.height) + (v - g.gy) by ring]
      rw [foldl_max_add]
      rw [show (es.map (fun f : Elem => f.y + f.height)).foldl max (e.y + e.height) =
          member_max_y e es from rfl, ← hyh]
      ring
  exact ⟨hadd, hrem,
    fun g e gA h hi => trunc_int_exact (hadd g e gA h) hi,
    fun g e gA h hi => trunc_int_exact (hrem g e gA h) hi,
    hsetx, hsety⟩

/-- C1 witness: adding an integer member to a fresh group, the exact union
holds on the result. -/
theorem group_bbox_truncated_union_witness :
    (add_element group_w0 elem_w = some group_w1 ∧ IntCoords group_w1.elements) ∧
    BboxExact group_w1 := by
  have hadd : add_element group_w0 elem_w = some group_w1 := by
    simp only [add_element, update_bbox, group_w0, elem_w, group_w1,
      member_min_x, member_min_y, member_max_x, member_max_y]
    norm_num [pyInt]
  have hint : IntCoords group_w1.elements := by
    intro f hf
    simp only [group_w1, List.mem_singleton] at hf
    subst hf
    norm_num
  exact ⟨⟨hadd, hint⟩,
    group_bbox_truncated_union_after_mutation.2.2.1 group_w0 elem_w group_w1 hadd hint⟩

/-- `atan2` with positive second argument is `arctan` of the ratio. -/
theorem atan2_of_pos (y x : ℝ) (hx : 0 < x) : atan2 y x = Real.arctan (y / x) := by
  unfold atan2
  rw [if_pos hx]

/-- C6: for every shape with positive width and height, every angle in
`(-π, π]` and every padding, `get_quad_boundary_point` returns an edge
midpoint of the bounding box pushed outward by the padding, selected
exactly as the spec describes: a vertical edge when `|theta|` is below
`atan2(height, width)` or above `π` minus it — the right edge iff
`|theta| < π/2` — and a horizontal edge otherwise — the bottom edge iff
`theta > 0`. -/
theorem get_quad_boundary_point_edge_midpoint (s : ShapeR) (theta padding : ℝ)
    (hw : 0 < s.width) (hh : 0 < s.height)
    (hl : -Real.pi < theta) (hu : theta ≤ Real.pi) :
    EdgeMidpointSnap s theta padding := by
  have hA : atan2 s.height s.width = Real.arctan (s.height / s.width) :=
    atan2_of_pos _ _ hw
  by_cases h1 : |theta| < Real.arctan (s.height / s.width) ∨
      Real.pi - Real.arctan (s.height / s.width) < |theta|
  · by_cases h2 : |theta| < Real.pi / 2
    · refine Or.inl ⟨h1, Or.inl ⟨h2, ?_⟩⟩
      simp only [get_quad_boundary_point, hA, if_pos h1, if_pos h2]
      rw [Prod.mk.injEq]
      constructor <;> ring
    · refine Or.inl ⟨h1, Or.inr ⟨not_lt.mp h2, ?_⟩⟩
      simp only [get_quad_boundary_point, hA, if_pos h1, if_neg h2]
      rw [Prod.mk.injEq]
      constructor <;> ring
  · have h1c := h1
    push_neg at h1c
    by_cases h3 : 0 < theta
    · refine Or.inr ⟨⟨h1c.1, h1c.2⟩, Or.inl ⟨h3, ?_⟩⟩
      simp only [get_quad_boundary_point, hA, if_neg h1, if_pos h3]
      rw [Prod.mk.injEq]
      constructor <;> ring
    · refine Or.inr ⟨⟨h1c.1, h1c.2⟩, Or.inr ⟨not_lt.mp h3, ?_⟩⟩
      simp only [get_quad_boundary_point, hA, if_neg h1, if_neg h3]
      rw [Prod.mk.injEq]
      constructor <;> ring

/-- C6 witness: the unit square at angle `0` with padding `5` — the
hypotheses hold and the edge-midpoint property follows by applying the
theorem. -/
theorem get_quad_boundary_point_edge_midpoint_witness :
    (0 < shapeW.width ∧ 0 < shapeW.height ∧ -Real.pi < 0 ∧ (0 : ℝ) ≤ Real.pi) ∧
    EdgeMidpointSnap shapeW 0 5 :=
  ⟨⟨by norm_num [shapeW], by norm_num [shapeW],
    neg_lt_zero.mpr Real.pi_pos, Real.pi_pos.le⟩,
   get_quad_boundary_point_edge_midpoint shapeW 0 5
     (by norm_num [shapeW]) (by norm_num [shapeW])
     (neg_lt_zero.mpr Real.pi_pos) Real.pi_pos.le⟩

/-- C7 witness: the amended statement applied to `measure_px` and the
synced state `textW`, projected to the stale-size fact for `fontSize`. -/
theorem text_size_remeasured_witness :
    FontSync textW ∧
    (text_set_fontSize textW 30).width = textW.width ∧
    (text_set_text measure_px textW ("xyz")).width =
      (measure_px ((text_set_text measure_px textW ("xyz")).fontFamily,
        (text_set_text measure_px textW ("xyz")).fontSize) ("xyz")).1 :=
  ⟨rfl,
   ((text_size_remeasured_only_on_text_assignment measure_px textW rfl).2.2.1 30).1,
   ((text_size_remeasured_only_on_text_assignment measure_px textW rfl).1 ("xyz")).1⟩

end ProcXD





